import Mathlib

/-!
Verification of the `geo` repository's rectangle type (`geo-types/src/rect.rs`)
and of the DE-9IM topological-relationship engine exposed by
`geo/src/algorithm/relate/mod.rs`.

The rectangle layer is embedded directly from the source.  Coordinates are
modelled over `ℚ` (the source is generic over an ordered numeric
`CoordinateType`; non-finite floating values are excluded by the spec's
non-goals).  A Rust `panic!` is modelled as `Option.none`, and a Rust
`Result` as `Except`.

The relate engine's internals (`RelateComputer`, `IntersectionMatrix`, …) are
declared but not present in the repository's source files; following the
spec, they are modelled from its words (definitions so marked).
-/

/-- A 2D coordinate, from `geo-types`: an `(x, y)` pair compared by value. -/
structure Coordinate where
  x : ℚ
  y : ℚ
deriving DecidableEq

/-- An axis-aligned rectangle given by its minimum (bottom-left) and maximum
(top-right) coordinates, from `geo-types/src/rect.rs`. -/
structure Rect where
  min : Coordinate
  max : Coordinate
deriving DecidableEq

/-- `Rect::new` from `rect.rs`: per axis, order the two input values so the
smaller becomes `min` and the larger becomes `max`. -/
def Rect.new (c1 c2 : Coordinate) : Rect :=
  let mm_x := if c1.x < c2.x then (c1.x, c2.x) else (c2.x, c1.x)
  let mm_y := if c1.y < c2.y then (c1.y, c2.y) else (c2.y, c1.y)
  { min := { x := mm_x.1, y := mm_y.1 }, max := { x := mm_x.2, y := mm_y.2 } }

/-- The error type `InvalidRectCoordinatesError` from `rect.rs`. -/
inductive InvalidRectCoordinatesError where
  | mk
deriving DecidableEq

/-- `Rect::try_new` from `rect.rs`: it simply wraps `Rect::new` in `Ok`. -/
def Rect.try_new (c1 c2 : Coordinate) :
    Except InvalidRectCoordinatesError Rect :=
  Except.ok (Rect.new c1 c2)

/-- `Rect::has_valid_bounds` from `rect.rs`:
`self.min.x <= self.max.x && self.min.y <= self.max.y`. -/
def Rect.has_valid_bounds (r : Rect) : Bool :=
  decide (r.min.x ≤ r.max.x) && decide (r.min.y ≤ r.max.y)

/-- `Rect::set_min` from `rect.rs`: assign the new `min`, then
`assert_valid_bounds` — the panic there is modelled as `none`. -/
def Rect.set_min (r : Rect) (c : Coordinate) : Option Rect :=
  let r2 : Rect := { min := c, max := r.max }
  if r2.has_valid_bounds then some r2 else none

/-- `Rect::set_max` from `rect.rs`: assign the new `max`, then
`assert_valid_bounds` — the panic there is modelled as `none`. -/
def Rect.set_max (r : Rect) (c : Coordinate) : Option Rect :=
  let r2 : Rect := { min := r.min, max := c }
  if r2.has_valid_bounds then some r2 else none

/-- `Rect::width` from `rect.rs`: `self.max().x - self.min().x`. -/
def Rect.width (r : Rect) : ℚ :=
  r.max.x - r.min.x

/-- `Rect::height` from `rect.rs`: `self.max().y - self.min().y`. -/
def Rect.height (r : Rect) : ℚ :=
  r.max.y - r.min.y

/-! Helper lemmas about the rectangle layer. -/

lemma Rect.new_min_max (c1 c2 : Coordinate) :
    Rect.new c1 c2 =
      { min := { x := if c1.x < c2.x then c1.x else c2.x,
                 y := if c1.y < c2.y then c1.y else c2.y },
        max := { x := if c1.x < c2.x then c2.x else c1.x,
                 y := if c1.y < c2.y then c2.y else c1.y } } := by
  unfold Rect.new
  split <;> split <;> rfl

lemma Rect.has_valid_bounds_iff (r : Rect) :
    r.has_valid_bounds = true ↔ r.min.x ≤ r.max.x ∧ r.min.y ≤ r.max.y := by
  simp [Rect.has_valid_bounds]

lemma Rect.new_valid (c1 c2 : Coordinate) :
    (Rect.new c1 c2).has_valid_bounds = true := by
  rw [Rect.new_min_max, Rect.has_valid_bounds_iff]
  refine ⟨?_, ?_⟩ <;> dsimp only <;> split
  · exact le_of_lt (by assumption)
  · exact le_of_not_lt (by assumption)
  · exact le_of_lt (by assumption)
  · exact le_of_not_lt (by assumption)

lemma if_lt_comm_left (a b : ℚ) :
    (if a < b then a else b) = if b < a then b else a := by
  rcases lt_trichotomy a b with h | h | h
  · rw [if_pos h, if_neg (asymm h)]
  · rw [if_neg (by rw [h]; exact lt_irrefl b), if_neg (by rw [h]; exact lt_irrefl b), h]
  · rw [if_neg (asymm h), if_pos h]

lemma if_lt_comm_right (a b : ℚ) :
    (if a < b then b else a) = if b < a then a else b := by
  rcases lt_trichotomy a b with h | h | h
  · rw [if_pos h, if_neg (asymm h)]
  · rw [if_neg (by rw [h]; exact lt_irrefl b), if_neg (by rw [h]; exact lt_irrefl b), h]
  · rw [if_neg (asymm h), if_pos h]

lemma Rect.new_comm (c1 c2 : Coordinate) :
    Rect.new c1 c2 = Rect.new c2 c1 := by
  rw [Rect.new_min_max, Rect.new_min_max]
  rw [if_lt_comm_left c1.x c2.x, if_lt_comm_left c1.y c2.y,
    if_lt_comm_right c1.x c2.x, if_lt_comm_right c1.y c2.y]

lemma Rect.set_min_none_iff (r : Rect) (c : Coordinate) :
    r.set_min c = none ↔ ¬(c.x ≤ r.max.x ∧ c.y ≤ r.max.y) := by
  unfold Rect.set_min
  by_cases h : (Rect.mk c r.max).has_valid_bounds = true
  · rw [if_pos h]
    simp only [Rect.has_valid_bounds_iff] at h
    simp [h]
  · rw [if_neg h]
    simp only [Rect.has_valid_bounds_iff] at h
    simp [h]

lemma Rect.set_min_some (r : Rect) (c : Coordinate) (r2 : Rect)
    (h : r.set_min c = some r2) : r2.min = c ∧ r2.max = r.max := by
  unfold Rect.set_min at h
  by_cases hv : (Rect.mk c r.max).has_valid_bounds = true
  · rw [if_pos hv] at h
    cases h
    exact ⟨rfl, rfl⟩
  · rw [if_neg hv] at h
    cases h

lemma Rect.set_max_none_iff (r : Rect) (c : Coordinate) :
    r.set_max c = none ↔ ¬(r.min.x ≤ c.x ∧ r.min.y ≤ c.y) := by
  unfold Rect.set_max
  by_cases h : (Rect.mk r.min c).has_valid_bounds = true
  · rw [if_pos h]
    simp only [Rect.has_valid_bounds_iff] at h
    simp [h]
  · rw [if_neg h]
    simp only [Rect.has_valid_bounds_iff] at h
    simp [h]

lemma Rect.set_max_some (r : Rect) (c : Coordinate) (r2 : Rect)
    (h : r.set_max c = some r2) : r2.max = c ∧ r2.min = r.min := by
  unfold Rect.set_max at h
  by_cases hv : (Rect.mk r.min c).has_valid_bounds = true
  · rw [if_pos hv] at h
    cases h
    exact ⟨rfl, rfl⟩
  · rw [if_neg hv] at h
    cases h

/-- Claim C8: for every pair of coordinates, `Rect::new` succeeds and returns
a rectangle with `min.x ≤ max.x` and `min.y ≤ max.y` (its own
`has_valid_bounds` check holds, so width and height are nonnegative), and
`Rect::new` is symmetric in its two arguments. -/
theorem rect_new_valid_nonneg_comm (c1 c2 : Coordinate) :
    (Rect.new c1 c2).has_valid_bounds = true ∧
    0 ≤ (Rect.new c1 c2).width ∧
    0 ≤ (Rect.new c1 c2).height ∧
    Rect.new c1 c2 = Rect.new c2 c1 := by
  have hv := Rect.new_valid c1 c2
  have hb := (Rect.has_valid_bounds_iff (Rect.new c1 c2)).mp hv
  exact ⟨hv, sub_nonneg.mpr hb.1, sub_nonneg.mpr hb.2, Rect.new_comm c1 c2⟩

/-- Claim C9: `Rect::try_new` returns `Ok` on every input (its body is
literally `Ok(Rect::new(c1, c2))`), so `InvalidRectCoordinatesError` is never
produced. -/
theorem rect_try_new_always_ok (c1 c2 : Coordinate) :
    Rect.try_new c1 c2 = Except.ok (Rect.new c1 c2) :=
  rfl

/-- Claim C10: `set_min` panics exactly when the new minimum exceeds the
stored maximum on some axis, `set_max` panics exactly when the new maximum is
below the stored minimum on some axis, and a normal return updates only the
targeted field. -/
theorem rect_set_min_set_max_spec (r : Rect) (c : Coordinate) :
    (r.set_min c = none ↔ ¬(c.x ≤ r.max.x ∧ c.y ≤ r.max.y)) ∧
    (∀ r2, r.set_min c = some r2 → r2.min = c ∧ r2.max = r.max) ∧
    (r.set_max c = none ↔ ¬(r.min.x ≤ c.x ∧ r.min.y ≤ c.y)) ∧
    (∀ r2, r.set_max c = some r2 → r2.max = c ∧ r2.min = r.min) :=
  ⟨Rect.set_min_none_iff r c, fun r2 h => Rect.set_min_some r c r2 h,
   Rect.set_max_none_iff r c, fun r2 h => Rect.set_max_some r c r2 h⟩

/-- Claim C7, counterexample: construction with `min`-violating input does
not report an error — `Rect::try_new((20,20),(10,10))` succeeds, silently
swapping the coordinates, even though the first coordinate strictly exceeds
the second on both axes. -/
theorem rect_try_new_violating_input_still_ok :
    (10 : ℚ) < 20 ∧
    Rect.try_new (Coordinate.mk 20 20) (Coordinate.mk 10 10) =
      Except.ok (Rect.mk (Coordinate.mk 10 10) (Coordinate.mk 20 20)) := by
  constructor
  · norm_num
  · rfl

/-- Claim C7, amended: `Rect::new` and `Rect::try_new` never fail — they
reorder the coordinates so the bounds are always valid, and `try_new` always
returns `Ok`; only the mutators `set_min`/`set_max` fail (panic with the
descriptive invalid-bounds message) when the min/max ordering would be
violated, and succeed otherwise. -/
theorem rect_bounds_violation_handling (c1 c2 : Coordinate) (r : Rect) :
    (Rect.new c1 c2).has_valid_bounds = true ∧
    Rect.try_new c1 c2 = Except.ok (Rect.new c1 c2) ∧
    (r.set_min c1 = none ↔ ¬(c1.x ≤ r.max.x ∧ c1.y ≤ r.max.y)) ∧
    (r.set_max c1 = none ↔ ¬(r.min.x ≤ c1.x ∧ r.min.y ≤ c1.y)) :=
  ⟨Rect.new_valid c1 c2, rfl, Rect.set_min_none_iff r c1,
   Rect.set_max_none_iff r c1⟩

/-! The DE-9IM intersection-matrix layer.  The implementation files
(`intersection_matrix.rs`, `relate_computer.rs`, …) are referenced by
`relate/mod.rs` but absent from the repository snapshot, so the definitions
below are modelled from the spec. -/

/-- Modelled from the spec: the `Location` classification of a point relative
to one geometry, restricted to the three values `{I, B, E}` that index the
intersection matrix (the transient `NONE` never indexes a cell). -/
inductive Location where
  | interior
  | boundary
  | exterior
deriving DecidableEq

/-- Modelled from the spec: the `IntersectionMatrix`, a 3×3 grid indexed by a
`Location` of geometry A and one of geometry B, each cell holding a dimension
code (`-1` empty, `0` point, `1` line, `2` area). -/
def IntersectionMatrix : Type :=
  Location → Location → ℤ

/-- Modelled from the spec: the empty matrix a relate computation starts
from — every cell holds `-1`. -/
def IntersectionMatrix.empty : IntersectionMatrix :=
  fun _ _ => -1

/-- Modelled from the spec: `set(locA, locB, dim)`, the unconditional cell
write. -/
def IntersectionMatrix.set (m : IntersectionMatrix) (a b : Location) (d : ℤ) :
    IntersectionMatrix :=
  fun i j => if i = a ∧ j = b then d else m i j

/-- Modelled from the spec: `setAtLeast(locA, locB, dim)` — write the cell
only if `dim` exceeds its current value; the sole mutation primitive used by
the relate computer. -/
def IntersectionMatrix.setAtLeast (m : IntersectionMatrix) (a b : Location)
    (d : ℤ) : IntersectionMatrix :=
  fun i j => if i = a ∧ j = b then (if m i j < d then d else m i j) else m i j

/-- A dimension code is in range when it lies in `{-1, 0, 1, 2}`. -/
def dimInRange (d : ℤ) : Prop :=
  -1 ≤ d ∧ d ≤ 2

/-- Modelled from the spec: one `(locA, locB, dim)` contribution folded into
the matrix by the relate computer. -/
structure Contribution where
  locA : Location
  locB : Location
  dim : ℤ

/-- Folding one contribution into the matrix via `setAtLeast`. -/
def applyContribution (m : IntersectionMatrix) (c : Contribution) :
    IntersectionMatrix :=
  m.setAtLeast c.locA c.locB c.dim

/-- A relate computation as the matrix sees it: start from the empty matrix
and fold in the contributions in order. -/
def applyContributions (cs : List Contribution) : IntersectionMatrix :=
  cs.foldl applyContribution IntersectionMatrix.empty

lemma setAtLeast_cell_eq (m : IntersectionMatrix) (a b : Location) (d : ℤ) :
    m.setAtLeast a b d a b = if m a b < d then d else m a b := by
  unfold IntersectionMatrix.setAtLeast
  rw [if_pos ⟨rfl, rfl⟩]

lemma setAtLeast_cell_untouched (m : IntersectionMatrix) (a b : Location)
    (d : ℤ) (i j : Location) (h : ¬(i = a ∧ j = b)) :
    m.setAtLeast a b d i j = m i j := by
  unfold IntersectionMatrix.setAtLeast
  rw [if_neg h]

lemma setAtLeast_cell_cases (m : IntersectionMatrix) (a b : Location) (d : ℤ)
    (i j : Location) :
    m.setAtLeast a b d i j = m i j ∨ m.setAtLeast a b d i j = d := by
  unfold IntersectionMatrix.setAtLeast
  split
  · split
    · exact Or.inr rfl
    · exact Or.inl rfl
  · exact Or.inl rfl

lemma setAtLeast_le (m : IntersectionMatrix) (a b : Location) (d : ℤ)
    (i j : Location) : m i j ≤ m.setAtLeast a b d i j := by
  unfold IntersectionMatrix.setAtLeast
  split
  · split
    · exact le_of_lt (by assumption)
    · exact le_refl _
  · exact le_refl _

lemma foldl_applyContribution_range (cs : List Contribution)
    (m : IntersectionMatrix) (hm : ∀ i j, dimInRange (m i j))
    (hcs : ∀ c ∈ cs, dimInRange c.dim) :
    ∀ i j, dimInRange ((cs.foldl applyContribution m) i j) := by
  induction cs generalizing m with
  | nil => simpa using hm
  | cons c cs ih =>
    rw [List.foldl_cons]
    refine ih (applyContribution m c) ?_ ?_
    · intro i j
      rcases setAtLeast_cell_cases m c.locA c.locB c.dim i j with h | h
      · unfold applyContribution
        rw [h]
        exact hm i j
      · unfold applyContribution
        rw [h]
        exact hcs c (by simp)
    · intro c2 hc2
      exact hcs c2 (by simp [hc2])

lemma foldl_applyContribution_untouched (cs : List Contribution)
    (m : IntersectionMatrix) (i j : Location)
    (h : ∀ c ∈ cs, ¬(c.locA = i ∧ c.locB = j)) :
    (cs.foldl applyContribution m) i j = m i j := by
  induction cs generalizing m with
  | nil => rfl
  | cons c cs ih =>
    rw [List.foldl_cons]
    rw [ih (applyContribution m c) (fun c2 hc2 => h c2 (by simp [hc2]))]
    exact setAtLeast_cell_untouched m c.locA c.locB c.dim i j
      (fun hij => h c (by simp) ⟨hij.1.symm, hij.2.symm⟩)

/-- Claim C2: `setAtLeast` writes its cell only when the new dimension
exceeds the stored one (it is the identity when `d` is not larger, and
stores `d` when it is), it never decreases any cell, and a second
application with the same or a smaller dimension is a no-op. -/
theorem setAtLeast_monotone (m : IntersectionMatrix) (a b : Location)
    (d : ℤ) :
    (d ≤ m a b → m.setAtLeast a b d = m) ∧
    (m a b < d → m.setAtLeast a b d a b = d) ∧
    (∀ i j, m i j ≤ m.setAtLeast a b d i j) ∧
    (∀ d2, d2 ≤ d →
      (m.setAtLeast a b d).setAtLeast a b d2 = m.setAtLeast a b d) := by
  refine ⟨?_, ?_, setAtLeast_le m a b d, ?_⟩
  · intro hd
    funext i j
    unfold IntersectionMatrix.setAtLeast
    split
    · rename_i hij
      rw [hij.1, hij.2, if_neg (not_lt_of_le hd)]
    · rfl
  · intro hd
    rw [setAtLeast_cell_eq, if_pos hd]
  · intro d2 hd2
    funext i j
    by_cases hij : i = a ∧ j = b
    · rw [hij.1, hij.2, setAtLeast_cell_eq]
      have hle : d ≤ m.setAtLeast a b d a b := by
        rw [setAtLeast_cell_eq]
        split
        · exact le_refl d
        · exact le_of_not_lt (by assumption)
      rw [if_neg (not_lt_of_le (le_trans hd2 hle))]
    · rw [setAtLeast_cell_untouched _ _ _ _ _ _ hij]

/-- Claim C3: every matrix starts with all nine cells `-1`; folding in any
sequence of contributions whose dimensions are in `{-1, 0, 1, 2}` leaves
every cell in `{-1, 0, 1, 2}` (this also covers every intermediate state,
each being the fold of a prefix); and a cell no contribution targeted still
reads `-1`. -/
theorem intersection_matrix_lifecycle :
    (∀ i j, IntersectionMatrix.empty i j = -1) ∧
    (∀ cs : List Contribution, (∀ c ∈ cs, dimInRange c.dim) →
      ∀ i j, dimInRange (applyContributions cs i j)) ∧
    (∀ cs : List Contribution, ∀ i j,
      (∀ c ∈ cs, ¬(c.locA = i ∧ c.locB = j)) →
      applyContributions cs i j = -1) := by
  refine ⟨fun i j => rfl, ?_, ?_⟩
  · intro cs hcs
    exact foldl_applyContribution_range cs IntersectionMatrix.empty
      (fun i j => by constructor <;> norm_num [IntersectionMatrix.empty]) hcs
  · intro cs i j h
    exact foldl_applyContribution_untouched cs IntersectionMatrix.empty i j h

/-! The relate operation.  `relate/mod.rs` only declares the trait and
delegates to `RelateComputer`, whose file is absent from the snapshot; the
operation is therefore modelled denotationally from the spec's glossary:
DE-9IM classifies two geometries by the dimension of the intersection of
each pair of their interior/boundary/exterior parts. -/

/-- Modelled from the spec: a planar point set, as a characteristic
function over an abstract point type. -/
def PointSet (Point : Type) : Type :=
  Point → Bool

/-- Intersection of two point sets. -/
def interPS {Point : Type} (S T : PointSet Point) : PointSet Point :=
  fun p => S p && T p

/-- Modelled from the spec: a geometry, for DE-9IM purposes, classifies
every point of the plane as interior, boundary, or exterior to it. -/
def GeometryClass (Point : Type) : Type :=
  Point → Location

/-- The part of a geometry carrying a given location: its interior,
boundary, or exterior as a point set. -/
def partOf {Point : Type} (g : GeometryClass Point) (l : Location) :
    PointSet Point :=
  fun p => decide (g p = l)

/-- Modelled from the spec: `relate(A, B)` — cell `(i, j)` holds the
dimension of the intersection of the `i`-part of `A` with the `j`-part of
`B`, where `dim` is the dimension measure on planar point sets (kept
abstract: `-1` empty, `0` point, `1` line, `2` area). -/
def relate {Point : Type} (dim : PointSet Point → ℤ)
    (A B : GeometryClass Point) : IntersectionMatrix :=
  fun i j => dim (interPS (partOf A i) (partOf B j))

/-- Row/column transpose of an intersection matrix. -/
def IntersectionMatrix.transpose (m : IntersectionMatrix) :
    IntersectionMatrix :=
  fun i j => m j i

/-- Modelled from the spec: one character of a DE-9IM pattern —
`{0, 1, 2, T (≥ 0), F (= -1), * (any)}`. -/
inductive PatCode where
  | d0
  | d1
  | d2
  | t
  | f
  | any
deriving DecidableEq

/-- Does a cell's dimension code satisfy one pattern character? -/
def cellMatches (d : ℤ) : PatCode → Bool
  | .d0 => decide (d = 0)
  | .d1 => decide (d = 1)
  | .d2 => decide (d = 2)
  | .t => decide (0 ≤ d)
  | .f => decide (d = -1)
  | .any => true

/-- A DE-9IM pattern: one pattern character per cell. -/
def Pattern : Type :=
  Location → Location → PatCode

/-- The three locations, in matrix order. -/
def locList : List Location :=
  [Location.interior, Location.boundary, Location.exterior]

/-- Modelled from the spec: `matches(pattern)` — compare all nine cells
against the pattern. -/
def IntersectionMatrix.matches (m : IntersectionMatrix) (pat : Pattern) :
    Bool :=
  locList.all fun i => locList.all fun j => cellMatches (m i j) (pat i j)

/-- The DE-9IM `equals` pattern `T*F**FFF*`. -/
def equalsPattern : Pattern := fun i j =>
  match i, j with
  | Location.interior, Location.interior => PatCode.t
  | Location.interior, Location.exterior => PatCode.f
  | Location.boundary, Location.exterior => PatCode.f
  | Location.exterior, Location.interior => PatCode.f
  | Location.exterior, Location.boundary => PatCode.f
  | _, _ => PatCode.any

/-- Modelled from the spec: the error a relate call reports for invalid
input geometry. -/
inductive RelateError where
  | invalidGeometry
deriving DecidableEq

/-- Modelled from the spec: the relate entry point with its failure
semantics — invalid input is rejected before any computation, otherwise the
complete matrix is returned. -/
def relateChecked {Point : Type} (valid : GeometryClass Point → Bool)
    (dim : PointSet Point → ℤ) (A B : GeometryClass Point) :
    Except RelateError IntersectionMatrix :=
  if valid A && valid B then Except.ok (relate dim A B)
  else Except.error RelateError.invalidGeometry

lemma partOf_inter_disjoint {Point : Type} (A : GeometryClass Point)
    (l l2 : Location) (h : l ≠ l2) (p : Point) :
    interPS (partOf A l) (partOf A l2) p = false := by
  unfold interPS partOf
  by_cases hp : A p = l
  · simp [hp, h]
  · simp [hp]

/-- Claim C1: the matrix of `relate(A, B)` is the row/column transpose of
the matrix of `relate(B, A)`. -/
theorem relate_transpose_symmetry {Point : Type}
    (dim : PointSet Point → ℤ) (A B : GeometryClass Point) :
    relate dim A B = (relate dim B A).transpose := by
  funext i j
  show dim (interPS (partOf A i) (partOf B j)) =
    dim (interPS (partOf B j) (partOf A i))
  exact congrArg dim (funext fun p => Bool.and_comm _ _)

/-- Claim C4: for a geometry with non-empty interior, `relate(A, A)` matches
the DE-9IM `equals` pattern, given that the dimension measure stays in
`{-1, 0, 1, 2}` and assigns `-1` exactly to the empty set. -/
theorem relate_self_matches_equals {Point : Type}
    (dim : PointSet Point → ℤ) (A : GeometryClass Point)
    (hrange : ∀ S, -1 ≤ dim S ∧ dim S ≤ 2)
    (hempty : ∀ S : PointSet Point, dim S = -1 ↔ ∀ p, S p = false)
    (hA : ∃ p, A p = Location.interior) :
    (relate dim A A).matches equalsPattern = true := by
  have hd : ∀ l l2 : Location, l ≠ l2 →
      dim (interPS (partOf A l) (partOf A l2)) = -1 :=
    fun l l2 h => (hempty _).mpr (fun p => partOf_inter_disjoint A l l2 h p)
  have hT : 0 ≤ dim (interPS (partOf A Location.interior)
      (partOf A Location.interior)) := by
    obtain ⟨p0, hp0⟩ := hA
    have hne : dim (interPS (partOf A Location.interior)
        (partOf A Location.interior)) ≠ -1 := by
      intro hcontra
      have hcf := (hempty _).mp hcontra p0
      simp [interPS, partOf, hp0] at hcf
    have hr := hrange (interPS (partOf A Location.interior)
      (partOf A Location.interior))
    omega
  simp only [IntersectionMatrix.matches, locList, List.all_cons,
    List.all_nil, Bool.and_true, Bool.and_eq_true, relate, equalsPattern,
    cellMatches, decide_eq_true_eq]
  refine ⟨⟨hT, trivial, hd _ _ (by decide)⟩,
    ⟨trivial, trivial, hd _ _ (by decide)⟩,
    hd _ _ (by decide), hd _ _ (by decide)⟩

/-- Claim C6: a relate call either rejects invalid input with an explicit
error before computing anything, or returns the complete matrix — every
cell carrying an in-range dimension code; there is no partial result. -/
theorem relate_checked_total_or_error {Point : Type}
    (valid : GeometryClass Point → Bool) (dim : PointSet Point → ℤ)
    (A B : GeometryClass Point)
    (hrange : ∀ S, -1 ≤ dim S ∧ dim S ≤ 2) :
    ((valid A && valid B) = false →
      relateChecked valid dim A B = Except.error RelateError.invalidGeometry) ∧
    ((valid A && valid B) = true →
      relateChecked valid dim A B = Except.ok (relate dim A B) ∧
      ∀ i j, -1 ≤ relate dim A B i j ∧ relate dim A B i j ≤ 2) := by
  constructor
  · intro h
    simp [relateChecked, h]
  · intro h
    refine ⟨by simp [relateChecked, h], fun i j => hrange _⟩

/-- Witness geometry: the whole (one-point) plane is interior. -/
def wA : GeometryClass Unit :=
  fun _ => Location.interior

/-- Witness dimension measure on `PointSet Unit`. -/
def wdim : PointSet Unit → ℤ :=
  fun S => if S () then 2 else -1

/-- Witness validity check: accept everything. -/
def wvalid : GeometryClass Unit → Bool :=
  fun _ => true

lemma wdim_range (S : PointSet Unit) : -1 ≤ wdim S ∧ wdim S ≤ 2 := by
  unfold wdim
  split <;> constructor <;> norm_num

lemma wdim_empty_iff (S : PointSet Unit) :
    wdim S = -1 ↔ ∀ p, S p = false := by
  unfold wdim
  constructor
  · intro h p
    cases p
    by_cases hS : S () = true
    · rw [if_pos hS] at h
      norm_num at h
    · simpa using hS
  · intro h
    rw [h ()]
    norm_num

/-- Witness for claim C4 at the concrete one-point geometry. -/
theorem relate_self_matches_equals_witness :
    (relate wdim wA wA).matches equalsPattern = true :=
  relate_self_matches_equals wdim wA wdim_range wdim_empty_iff ⟨(), rfl⟩

/-- Witness for claim C6 at the concrete one-point geometry. -/
theorem relate_checked_total_or_error_witness :
    relateChecked wvalid wdim wA wA = Except.ok (relate wdim wA wA) :=
  ((relate_checked_total_or_error wvalid wdim wA wA wdim_range).2 rfl).1
